import Mathlib

/-!
Shallow embedding of the ZeroSum frontend adapter module (provider/contract
construction with hardcoded RPC URLs) and of the game-event hooks
(`useGameEvents`, `useGameEventRefresh`, `useGameEventHistory`).  Pure
computations are translated directly; effectful library calls (client
construction, log range queries, ABI decoding, toast notifications,
caller callbacks) are modelled as explicit `Except`/`Option` parameters
and as lists of emitted actions.
-/

namespace ZeroSum

/-! ### Network / provider adapter -/

/-- The mainnet RPC endpoint hardcoded in the adapter. -/
def mainnetUrl : String := "https://mainnet.base.org"

/-- The testnet RPC endpoint hardcoded in the adapter. -/
def sepoliaUrl : String := "https://sepolia.base.org"

/-- The fallback in `const targetChainId = chainId || 84532`: an absent
chain id, or the falsy number 0, falls back to 84532 (Base Sepolia). -/
def targetChainId (chainId : Option Int) : Int :=
  match chainId with
  | none => 84532
  | some c => if c = 0 then 84532 else c

/-- RPC URL selected by `getProvider`: mainnet iff the target chain id is
8453, testnet otherwise. -/
def getProviderRpcUrl (chainId : Option Int) : String :=
  if targetChainId chainId = 8453 then mainnetUrl else sepoliaUrl

/-- Chain objects passed to `createPublicClient` by `getViemClient`. -/
inductive ViemChain
  | base
  | baseSepolia
deriving DecidableEq

/-- Chain selected by `getViemClient`. -/
def getViemClientChain (chainId : Option Int) : ViemChain :=
  if targetChainId chainId = 8453 then ViemChain.base else ViemChain.baseSepolia

/-- RPC URL selected by `getViemClient` (the same conditional expression as
in `getProvider`). -/
def getViemClientRpcUrl (chainId : Option Int) : String :=
  if targetChainId chainId = 8453 then mainnetUrl else sepoliaUrl

/-- Console line printed by `getProvider` on success. -/
def providerOkLog : String := "Ethers provider created successfully"

/-- Console line printed by `getProvider` before rethrowing. -/
def providerFailLog : String := "Failed to create ethers provider:"

/-- Console line printed by `getViemClient` on success. -/
def viemOkLog : String := "Viem client created successfully"

/-- Console line printed by `getViemClient` before rethrowing. -/
def viemFailLog : String := "Failed to create viem client:"

/-- Console line printed by `getViemWalletClient` on success. -/
def walletOkLog : String := "Viem wallet client obtained"

/-- Console line printed by `getViemWalletClient` before rethrowing. -/
def walletFailLog : String := "Failed to get viem wallet client:"

/-- Console line printed by `getContract` on success. -/
def contractOkLog : String := "Contract created successfully"

/-- Console line printed by `getContract` before rethrowing. -/
def contractFailLog : String := "Failed to create contract:"

/-- Whether an `Except` value is an error. -/
def exceptIsError {ε α : Type} : Except ε α → Bool
  | Except.error _ => true
  | Except.ok _ => false

/-- The try/catch around `new ethers.JsonRpcProvider(rpcUrl)` in
`getProvider`, with the constructor call abstracted as an `Except` value.
The first component collects the console lines that depend on the outcome;
on failure the same error value is rethrown. -/
def getProviderRun {ε α : Type} (ctor : Except ε α) : List String × Except ε α :=
  match ctor with
  | Except.ok v => ([providerOkLog], Except.ok v)
  | Except.error e => ([providerFailLog], Except.error e)

/-- The try/catch around `createPublicClient` in `getViemClient`. -/
def getViemClientRun {ε α : Type} (ctor : Except ε α) : List String × Except ε α :=
  match ctor with
  | Except.ok v => ([viemOkLog], Except.ok v)
  | Except.error e => ([viemFailLog], Except.error e)

/-- The try/catch around `getConnectorClient` in `getViemWalletClient`. -/
def getWalletClientRun {ε α : Type} (ctor : Except ε α) : List String × Except ε α :=
  match ctor with
  | Except.ok v => ([walletOkLog], Except.ok v)
  | Except.error e => ([walletFailLog], Except.error e)

/-- `getContract`: calls `getProvider` outside its own try block (so a
provider failure propagates, already logged by `getProvider`), then wraps
`new ethers.Contract(address, abi, provider)` in try/catch, logging and
rethrowing the same error. -/
def getContractRun {ε α β : Type} (providerCtor : Except ε α)
    (contractCtor : α → Except ε β) : List String × Except ε β :=
  match getProviderRun providerCtor with
  | (logs, Except.error e) => (logs, Except.error e)
  | (logs, Except.ok p) =>
    match contractCtor p with
    | Except.ok c => (logs ++ [contractOkLog], Except.ok c)
    | Except.error e => (logs ++ [contractFailLog], Except.error e)

/-! ### Game events hook -/

/-- The `GameEventType` union of the hooks module.  Note it has SEVEN
tags: `GameCreated` is declared in addition to the six kinds the
subscription hook watches. -/
inductive GameEventType
  | GameCreated
  | PlayerJoined
  | MoveMade
  | GameFinished
  | NumberGenerated
  | TimeoutHandled
  | GameCancelled
deriving DecidableEq

/-- Decoded event arguments (`log.args` / `decoded.args`).  The
`gameId` field may be absent (`none`); a present bigint value is modelled
as an `Int` (`Number` conversion is exact for the game-id range).  The
`subtraction` and `newNumber` fields are kept as their string renderings,
which is all the toast template uses. -/
structure EventArgs where
  gameId : Option Int
  subtraction : String
  newNumber : String
deriving DecidableEq

/-- A log delivered to the live subscription handler. -/
structure LiveLog where
  args : EventArgs
  blockNumber : Int
  transactionHash : String
deriving DecidableEq

/-- The normalized event record (`GameEventData` in the source): event
kind, game identifier, arguments, block number, transaction hash. -/
structure GameEventData where
  type : GameEventType
  gameId : Option Int
  args : EventArgs
  blockNumber : Int
  transactionHash : String
deriving DecidableEq

/-- Observable effects of processing one batch of logs: toast
notifications shown and invocations of the caller-supplied callback. -/
inductive Action
  | toast (msg : String)
  | callback (e : GameEventData)
deriving DecidableEq

/-- `Number(v) === target` where `v` may be absent:
`Number(undefined)` is `NaN`, which compares unequal to everything. -/
def numberEq (v : Option Int) (target : Int) : Bool :=
  match v with
  | some n => n == target
  | none => false

/-- The guard at the top of the per-log body of `handleEvent`:
`if (gameId !== undefined && Number(eventGameId) !== gameId) return`. -/
def skipLog (gameId : Option Int) (log : LiveLog) : Bool :=
  match gameId with
  | none => false
  | some g => ! numberEq log.args.gameId g

/-- The fixed toast template per event kind (the `switch` in
`handleEvent`).  `GameCreated` has no case, so no toast. -/
def toastMessage : GameEventType → EventArgs → Option String
  | GameEventType.PlayerJoined, _ => some "Player joined the game!"
  | GameEventType.MoveMade, args =>
      some ("Move made: " ++ args.subtraction ++ " to " ++ args.newNumber)
  | GameEventType.GameFinished, _ => some "Game finished!"
  | GameEventType.NumberGenerated, _ => some "Game started! Number generated."
  | GameEventType.TimeoutHandled, _ => some "Timeout handled"
  | GameEventType.GameCancelled, _ => some "Game cancelled"
  | GameEventType.GameCreated, _ => none

/-- The `eventData` record built by `handleEvent` for one log. -/
def mkEventData (eventName : GameEventType) (log : LiveLog) : GameEventData :=
  { type := eventName
    gameId := log.args.gameId
    args := log.args
    blockNumber := log.blockNumber
    transactionHash := log.transactionHash }

/-- Per-log body of `handleEvent`: skip non-matching logs when a target
game id is given; otherwise optionally show the toast for the event kind
and optionally invoke the caller-supplied callback on the event data. -/
def processLog (eventName : GameEventType) (gameId : Option Int)
    (showToasts hasCallback : Bool) (log : LiveLog) : List Action :=
  if skipLog gameId log then []
  else
    (if showToasts then
       match toastMessage eventName log.args with
       | some msg => [Action.toast msg]
       | none => []
     else []) ++
    (if hasCallback then [Action.callback (mkEventData eventName log)] else [])

/-- `handleEvent`: iterate the per-log body over the delivered batch,
collecting the emitted effects in order. -/
def handleEvent (eventName : GameEventType) (gameId : Option Int)
    (showToasts hasCallback : Bool) (logs : List LiveLog) : List Action :=
  List.flatten (logs.map (processLog eventName gameId showToasts hasCallback))

/-- The six event names `useGameEvents` registers with
`useWatchContractEvent` (one call per name, in source order). -/
def watchedEvents : List GameEventType :=
  [GameEventType.PlayerJoined, GameEventType.MoveMade,
   GameEventType.GameFinished, GameEventType.NumberGenerated,
   GameEventType.TimeoutHandled, GameEventType.GameCancelled]

/-- The listener registrations made by `useGameEvents`: each watched event
name is registered against the single contract address. -/
def registrations (address : String) : List (String × GameEventType) :=
  watchedEvents.map (fun e => (address, e))

/-- Recognizes a callback invocation among emitted actions. -/
def isCallbackAction : Action → Bool
  | Action.callback _ => true
  | Action.toast _ => false

/-- `useGameEventRefresh gameId onRefresh` wires `useGameEvents gameId cb`
with default options (`showToasts = true`, a callback present), where `cb`
invokes `onRefresh` once per delivered event.  The number of refresh
invocations for one batch is therefore the number of callback actions. -/
def refreshCount (gameId : Int) (eventName : GameEventType)
    (logs : List LiveLog) : Nat :=
  (handleEvent eventName (some gameId) true true logs).countP isCallbackAction

/-! ### Historical fetch (`useGameEventHistory.fetchEvents`) -/

/-- A raw log returned by `publicClient.getLogs`. -/
structure RawLog where
  data : String
  topics : List String
  blockNumber : Int
  transactionHash : String
deriving DecidableEq

/-- Result of `decodeEventLog` against the contract ABI: the decoded event
name and arguments. -/
structure DecodedEvent where
  eventName : GameEventType
  args : EventArgs
deriving DecidableEq

/-- The ABI decoder, abstracted: `none` models a decode that throws.
(The source calls viem's `decodeEventLog` with the `ZeroSumSimplifiedABI`;
decoding is deterministic.) -/
def Decoder : Type := RawLog → Option DecodedEvent

/-- Truthiness of `decoded.args?.gameId`: an absent field and the bigint
0n are both falsy. -/
def gameIdTruthy (v : Option Int) : Bool :=
  match v with
  | some n => n != 0
  | none => false

/-- The `.filter` predicate of `fetchEvents`: decode inside try/catch
(a throw yields `false`), then
`decoded.args?.gameId && Number(decoded.args.gameId) === gameId`. -/
def historyFilter (decode : Decoder) (gameId : Int) (log : RawLog) : Bool :=
  match decode log with
  | none => false
  | some d => gameIdTruthy d.args.gameId && numberEq d.args.gameId gameId

/-- The record literal built in the `.map` step of `fetchEvents`. -/
def mkHistoryRecord (d : DecodedEvent) (log : RawLog) : GameEventData :=
  { type := d.eventName
    gameId := d.args.gameId
    args := d.args
    blockNumber := log.blockNumber
    transactionHash := log.transactionHash }

/-- The `.map` step of `fetchEvents`: decodes again, this time with no
try/catch, so a decode failure here would throw out to the outer catch. -/
def historyMap (decode : Decoder) (log : RawLog) : Except String GameEventData :=
  match decode log with
  | some d => Except.ok (mkHistoryRecord d log)
  | none => Except.error "decodeEventLog threw"

/-- JavaScript `.map` with a function that can throw: evaluated left to
right, aborting at the first error. -/
def mapThrow {α β : Type} (f : α → Except String β) : List α → Except String (List β)
  | [] => Except.ok []
  | a :: as =>
    match f a with
    | Except.error e => Except.error e
    | Except.ok b =>
      match mapThrow f as with
      | Except.error e => Except.error e
      | Except.ok bs => Except.ok (b :: bs)

/-- The filter-then-map pipeline inside the outer try of `fetchEvents`. -/
def fetchEventsBody (decode : Decoder) (gameId : Int)
    (logs : List RawLog) : Except String (List GameEventData) :=
  mapThrow (historyMap decode) (logs.filter (historyFilter decode gameId))

/-- `fetchEvents`: returns `[]` when no public client is available; runs
`getLogs` (abstracted as an `Except` value) and the filter/map pipeline
inside a try whose catch logs and returns `[]`. -/
def fetchEvents (publicClient : Option Unit) (getLogs : Except String (List RawLog))
    (decode : Decoder) (gameId : Int) : List GameEventData :=
  match publicClient with
  | none => []
  | some _ =>
    match getLogs with
    | Except.error _ => []
    | Except.ok logs =>
      match fetchEventsBody decode gameId logs with
      | Except.ok evs => evs
      | Except.error _ => []

/-- Characterization of the records `fetchEvents` actually returns: one
record per log that decodes successfully with a present, truthy (nonzero)
game id equal to the target. -/
def codeMatchingRecords (decode : Decoder) (g : Int) : List RawLog → List GameEventData
  | [] => []
  | l :: ls =>
    match decode l with
    | none => codeMatchingRecords decode g ls
    | some d =>
      if gameIdTruthy d.args.gameId && numberEq d.args.gameId g then
        mkHistoryRecord d l :: codeMatchingRecords decode g ls
      else
        codeMatchingRecords decode g ls

/-- The set of records described by the spec sentence for the historical
fetch: one record per log that decodes successfully and whose decoded game
identifier equals the target (no truthiness requirement). -/
def specMatchingRecords (decode : Decoder) (g : Int) : List RawLog → List GameEventData
  | [] => []
  | l :: ls =>
    match decode l with
    | none => specMatchingRecords decode g ls
    | some d =>
      if numberEq d.args.gameId g then
        mkHistoryRecord d l :: specMatchingRecords decode g ls
      else
        specMatchingRecords decode g ls

/-! ### Helper lemmas -/

theorem historyFilter_of_none (decode : Decoder) (g : Int) (l : RawLog)
    (hdl : decode l = none) : historyFilter decode g l = false := by
  unfold historyFilter
  rw [hdl]

theorem historyFilter_of_some (decode : Decoder) (g : Int) (l : RawLog)
    (d : DecodedEvent) (hdl : decode l = some d) :
    historyFilter decode g l = (gameIdTruthy d.args.gameId && numberEq d.args.gameId g) := by
  unfold historyFilter
  rw [hdl]

theorem fetchEventsBody_eq (decode : Decoder) (g : Int) (logs : List RawLog) :
    fetchEventsBody decode g logs = Except.ok (codeMatchingRecords decode g logs) := by
  induction logs with
  | nil => rfl
  | cons l ls ih =>
    unfold fetchEventsBody at ih ⊢
    rw [List.filter_cons]
    cases hdl : decode l with
    | none =>
      rw [historyFilter_of_none decode g l hdl]
      simp only [Bool.false_eq_true, if_false]
      rw [ih]
      simp [codeMatchingRecords, hdl]
    | some d =>
      rw [historyFilter_of_some decode g l d hdl]
      by_cases hc : (gameIdTruthy d.args.gameId && numberEq d.args.gameId g) = true
      · rw [if_pos hc]
        simp only [mapThrow, historyMap, hdl]
        rw [ih]
        simp [codeMatchingRecords, hdl, hc]
      · rw [if_neg hc]
        rw [ih]
        simp only [Bool.not_eq_true] at hc
        simp [codeMatchingRecords, hdl, hc]

theorem fetchEvents_some_ok (decode : Decoder) (g : Int) (logs : List RawLog) :
    fetchEvents (some ()) (Except.ok logs) decode g = codeMatchingRecords decode g logs := by
  show (match fetchEventsBody decode g logs with
        | Except.ok evs => evs
        | Except.error _ => []) = codeMatchingRecords decode g logs
  rw [fetchEventsBody_eq]

theorem codeMatchingRecords_cons_none (decode : Decoder) (g : Int)
    (l : RawLog) (ls : List RawLog) (hdl : decode l = none) :
    codeMatchingRecords decode g (l :: ls) = codeMatchingRecords decode g ls := by
  simp only [codeMatchingRecords, hdl]

theorem codeMatchingRecords_cons_some (decode : Decoder) (g : Int)
    (l : RawLog) (ls : List RawLog) (d : DecodedEvent) (hdl : decode l = some d) :
    codeMatchingRecords decode g (l :: ls) =
      if gameIdTruthy d.args.gameId && numberEq d.args.gameId g then
        mkHistoryRecord d l :: codeMatchingRecords decode g ls
      else codeMatchingRecords decode g ls := by
  simp only [codeMatchingRecords, hdl]

theorem specMatchingRecords_cons_none (decode : Decoder) (g : Int)
    (l : RawLog) (ls : List RawLog) (hdl : decode l = none) :
    specMatchingRecords decode g (l :: ls) = specMatchingRecords decode g ls := by
  simp only [specMatchingRecords, hdl]

theorem specMatchingRecords_cons_some (decode : Decoder) (g : Int)
    (l : RawLog) (ls : List RawLog) (d : DecodedEvent) (hdl : decode l = some d) :
    specMatchingRecords decode g (l :: ls) =
      if numberEq d.args.gameId g then
        mkHistoryRecord d l :: specMatchingRecords decode g ls
      else specMatchingRecords decode g ls := by
  simp only [specMatchingRecords, hdl]

theorem codeMatchingRecords_drop (decode : Decoder) (g : Int)
    (pre post : List RawLog) (l : RawLog)
    (h : historyFilter decode g l = false) :
    codeMatchingRecords decode g (pre ++ l :: post) =
      codeMatchingRecords decode g (pre ++ post) := by
  induction pre with
  | nil =>
    simp only [List.nil_append]
    cases hdl : decode l with
    | none => rw [codeMatchingRecords_cons_none decode g l post hdl]
    | some d =>
      rw [codeMatchingRecords_cons_some decode g l post d hdl]
      rw [historyFilter_of_some decode g l d hdl] at h
      rw [if_neg (by simp [h])]
  | cons p ps ih =>
    simp only [List.cons_append] at ih ⊢
    cases hdp : decode p with
    | none =>
      rw [codeMatchingRecords_cons_none decode g p _ hdp,
          codeMatchingRecords_cons_none decode g p _ hdp, ih]
    | some d =>
      rw [codeMatchingRecords_cons_some decode g p _ d hdp,
          codeMatchingRecords_cons_some decode g p _ d hdp, ih]

theorem filterCond_eq_of_ne_zero (v : Option Int) (g : Int) (hg : g ≠ 0) :
    (gameIdTruthy v && numberEq v g) = numberEq v g := by
  cases v with
  | none => rfl
  | some n =>
    by_cases hn : n = g
    · subst hn
      simp [gameIdTruthy, numberEq, hg]
    · simp [gameIdTruthy, numberEq, hn]

theorem code_eq_spec_of_ne_zero (decode : Decoder) (g : Int) (hg : g ≠ 0)
    (logs : List RawLog) :
    codeMatchingRecords decode g logs = specMatchingRecords decode g logs := by
  induction logs with
  | nil => rfl
  | cons l ls ih =>
    cases hdl : decode l with
    | none =>
      rw [codeMatchingRecords_cons_none decode g l ls hdl,
          specMatchingRecords_cons_none decode g l ls hdl, ih]
    | some d =>
      rw [codeMatchingRecords_cons_some decode g l ls d hdl,
          specMatchingRecords_cons_some decode g l ls d hdl,
          filterCond_eq_of_ne_zero d.args.gameId g hg, ih]

theorem callback_mem_processLog (e : GameEventType) (g : Option Int)
    (st cb : Bool) (log : LiveLog) (d : GameEventData)
    (hc : Action.callback d ∈ processLog e g st cb log) :
    d = mkEventData e log := by
  unfold processLog at hc
  by_cases hs : skipLog g log = true
  · rw [if_pos hs] at hc
    simp at hc
  · rw [if_neg hs] at hc
    rcases List.mem_append.mp hc with h1 | h2
    · exfalso
      cases st with
      | false => simp at h1
      | true =>
        rcases htm : toastMessage e log.args with _ | msg <;> rw [htm] at h1 <;> simp at h1
    · cases cb with
      | false => simp at h2
      | true => simpa using h2

/-! ### Claim theorems -/

/-- C2: RPC URL selection is total for both `getProvider` and
`getViemClient`: chain id 8453 selects the mainnet URL, and any other
value, including an absent identifier, selects the testnet URL. -/
theorem C2_rpc_url_selection_total :
    getProviderRpcUrl (some 8453) = mainnetUrl ∧
    getViemClientRpcUrl (some 8453) = mainnetUrl ∧
    ∀ c : Option Int, c ≠ some 8453 →
      getProviderRpcUrl c = sepoliaUrl ∧ getViemClientRpcUrl c = sepoliaUrl := by
  refine ⟨rfl, rfl, ?_⟩
  intro c hc
  match c with
  | none => exact ⟨rfl, rfl⟩
  | some v =>
    have hv : v ≠ 8453 := fun h => hc (by rw [h])
    have ht : targetChainId (some v) ≠ 8453 := by
      by_cases h0 : v = 0
      · simp [targetChainId, h0]
      · simp [targetChainId, h0]
        exact hv
    exact ⟨by simp [getProviderRpcUrl, ht], by simp [getViemClientRpcUrl, ht]⟩

/-- Witness for C2 at the absent identifier and at chain id 0. -/
theorem C2_witness :
    getProviderRpcUrl none = sepoliaUrl ∧ getViemClientRpcUrl (some 0) = sepoliaUrl :=
  ⟨(C2_rpc_url_selection_total.2.2 none (by decide)).1,
   (C2_rpc_url_selection_total.2.2 (some 0) (by decide)).2⟩

/-- C3: when a target game identifier is specified and the
log's decoded game identifier does not equal it, the live handler emits
nothing for that log: no toast is shown and the caller-supplied callback
is never invoked. -/
theorem C3_nonmatching_log_skipped (e : GameEventType) (g : Int)
    (st cb : Bool) (log : LiveLog)
    (h : numberEq log.args.gameId g = false) :
    processLog e (some g) st cb log = [] ∧
    handleEvent e (some g) st cb [log] = [] := by
  have h1 : processLog e (some g) st cb log = [] := by
    simp [processLog, skipLog, h]
  exact ⟨h1, by simp [handleEvent, h1]⟩

/-- A live log whose decoded game id is 5. -/
def sampleLogFive : LiveLog :=
  { args := { gameId := some 5, subtraction := "3", newNumber := "7" }
    blockNumber := 10
    transactionHash := "0xaaa" }

/-- Witness for C3: a log for game 5 produces nothing when game 3 is the
target. -/
theorem C3_witness :
    processLog GameEventType.MoveMade (some 3) true true sampleLogFive = [] ∧
    handleEvent GameEventType.MoveMade (some 3) true true [sampleLogFive] = [] :=
  C3_nonmatching_log_skipped GameEventType.MoveMade 3 true true sampleLogFive (by decide)

/-- C6: for each of the six watched event kinds, when toast display is
enabled and a log is not filtered out, the handler emits a toast whose
text is the fixed template for that event kind. -/
theorem C6_toast_fixed_template (e : GameEventType) (g : Option Int)
    (cb : Bool) (log : LiveLog)
    (he : e ∈ watchedEvents) (hs : skipLog g log = false) :
    ∃ msg, toastMessage e log.args = some msg ∧
      Action.toast msg ∈ processLog e g true cb log := by
  cases e with
  | GameCreated => exact absurd he (by decide)
  | PlayerJoined => exact ⟨_, rfl, by simp [processLog, hs, toastMessage]⟩
  | MoveMade => exact ⟨_, rfl, by simp [processLog, hs, toastMessage]⟩
  | GameFinished => exact ⟨_, rfl, by simp [processLog, hs, toastMessage]⟩
  | NumberGenerated => exact ⟨_, rfl, by simp [processLog, hs, toastMessage]⟩
  | TimeoutHandled => exact ⟨_, rfl, by simp [processLog, hs, toastMessage]⟩
  | GameCancelled => exact ⟨_, rfl, by simp [processLog, hs, toastMessage]⟩

/-- Witness for C6 at the PlayerJoined kind with no target game id. -/
theorem C6_witness :
    ∃ msg, toastMessage GameEventType.PlayerJoined sampleLogFive.args = some msg ∧
      Action.toast msg ∈
        processLog GameEventType.PlayerJoined none true true sampleLogFive :=
  C6_toast_fixed_template GameEventType.PlayerJoined none true sampleLogFive
    (by decide) (by decide)

/-- C7: `useGameEventRefresh` re-triggers the refresh callback on any
event for the given game: a matching log always produces a callback
invocation, and with the derived hook's wiring the refresh fires exactly
once per matching log. -/
theorem C7_refresh_on_any_matching_event (e : GameEventType) (g : Int)
    (log : LiveLog) (h : numberEq log.args.gameId g = true) :
    Action.callback (mkEventData e log) ∈ processLog e (some g) true true log ∧
    refreshCount g e [log] = 1 := by
  have hs : skipLog (some g) log = false := by simp [skipLog, h]
  constructor
  · simp [processLog, hs]
  · unfold refreshCount handleEvent
    cases htm : toastMessage e log.args <;>
      simp [processLog, hs, htm, isCallbackAction]

/-- Witness for C7: an event for game 5 triggers exactly one refresh when
game 5 is watched. -/
theorem C7_witness :
    Action.callback (mkEventData GameEventType.GameFinished sampleLogFive) ∈
      processLog GameEventType.GameFinished (some 5) true true sampleLogFive ∧
    refreshCount 5 GameEventType.GameFinished [sampleLogFive] = 1 :=
  C7_refresh_on_any_matching_event GameEventType.GameFinished 5 sampleLogFive (by decide)

/-- A decoder whose result always carries game id 0 (as viem would decode
a log of a game with identifier 0). -/
def zeroDecoded : DecodedEvent :=
  { eventName := GameEventType.MoveMade
    args := { gameId := some 0, subtraction := "2", newNumber := "8" } }

/-- Decoder returning `zeroDecoded` for every log. -/
def zeroDecoder : Decoder := fun _ => some zeroDecoded

/-- A raw log for the counterexamples and witnesses. -/
def rawLogA : RawLog :=
  { data := "0xdata", topics := ["0xtopic"], blockNumber := 12, transactionHash := "0xbbb" }

/-- C1 (as stated) is false: with target game id 0 and one log that
decodes successfully to game id 0, the decoded game identifier equals the
target, and the set the spec describes contains the record, yet
`fetchEvents` returns the empty list (the filter requires a truthy game
id before comparing). -/
theorem C1_counterexample_zero_game :
    zeroDecoder rawLogA = some zeroDecoded ∧
    numberEq zeroDecoded.args.gameId 0 = true ∧
    specMatchingRecords zeroDecoder 0 [rawLogA] = [mkHistoryRecord zeroDecoded rawLogA] ∧
    fetchEvents (some ()) (Except.ok [rawLogA]) zeroDecoder 0 = [] := by
  refine ⟨rfl, rfl, rfl, rfl⟩

/-- C1 (amended): the historical fetch returns exactly one record per log
that decodes successfully with a present, truthy (nonzero) decoded game
identifier equal to the target; whenever the target game identifier is
nonzero this coincides with the decoded set of matching entries the spec
describes. -/
theorem C1_history_returns_matching (decode : Decoder) (g : Int) (logs : List RawLog) :
    fetchEvents (some ()) (Except.ok logs) decode g = codeMatchingRecords decode g logs ∧
    (g ≠ 0 →
      fetchEvents (some ()) (Except.ok logs) decode g = specMatchingRecords decode g logs) := by
  refine ⟨fetchEvents_some_ok decode g logs, fun hg => ?_⟩
  rw [fetchEvents_some_ok decode g logs, code_eq_spec_of_ne_zero decode g hg logs]

/-- A decoder whose result always carries game id 7. -/
def sevenDecoded : DecodedEvent :=
  { eventName := GameEventType.PlayerJoined
    args := { gameId := some 7, subtraction := "", newNumber := "" } }

/-- Decoder returning `sevenDecoded` for every log. -/
def sevenDecoder : Decoder := fun _ => some sevenDecoded

/-- Witness for C1 (amended) at target game id 7 with one matching log. -/
theorem C1_witness :
    fetchEvents (some ()) (Except.ok [rawLogA]) sevenDecoder 7 =
      codeMatchingRecords sevenDecoder 7 [rawLogA] ∧
    fetchEvents (some ()) (Except.ok [rawLogA]) sevenDecoder 7 =
      specMatchingRecords sevenDecoder 7 [rawLogA] :=
  ⟨(C1_history_returns_matching sevenDecoder 7 [rawLogA]).1,
   (C1_history_returns_matching sevenDecoder 7 [rawLogA]).2 (by decide)⟩

/-- C4: a log whose ABI decoding throws is excluded from the returned set
(the per-entry error is swallowed by the filter's catch) and no aggregate
error is surfaced: the pipeline still yields an ordinary list. -/
theorem C4_decode_failure_excluded (decode : Decoder) (g : Int)
    (pre post : List RawLog) (l : RawLog) (hd : decode l = none) :
    fetchEvents (some ()) (Except.ok (pre ++ l :: post)) decode g =
      fetchEvents (some ()) (Except.ok (pre ++ post)) decode g ∧
    fetchEventsBody decode g (pre ++ l :: post) =
      Except.ok (codeMatchingRecords decode g (pre ++ post)) := by
  have hdrop := codeMatchingRecords_drop decode g pre post l
    (historyFilter_of_none decode g l hd)
  constructor
  · rw [fetchEvents_some_ok, fetchEvents_some_ok, hdrop]
  · rw [fetchEventsBody_eq, hdrop]

/-- Decoder for which every log fails to decode. -/
def failDecoder : Decoder := fun _ => none

/-- Witness for C4: a log that fails to decode is dropped and the body
still succeeds. -/
theorem C4_witness :
    fetchEvents (some ()) (Except.ok ([] ++ rawLogA :: [])) failDecoder 3 =
      fetchEvents (some ()) (Except.ok ([] ++ [])) failDecoder 3 ∧
    fetchEventsBody failDecoder 3 ([] ++ rawLogA :: []) =
      Except.ok (codeMatchingRecords failDecoder 3 ([] ++ [])) :=
  C4_decode_failure_excluded failDecoder 3 [] [] rawLogA rfl

/-- C9: `fetchEvents` never surfaces an error to its caller: with no
public client it returns the empty list; when the log range query throws
the outer catch returns the empty list; and on a successful query the
filter/map body always succeeds, returning the list it computed. -/
theorem C9_fetchEvents_never_throws (decode : Decoder) (g : Int)
    (getLogs : Except String (List RawLog)) (e : String) (logs : List RawLog) :
    fetchEvents none getLogs decode g = [] ∧
    fetchEvents (some ()) (Except.error e) decode g = [] ∧
    ∃ evs, fetchEvents (some ()) (Except.ok logs) decode g = evs ∧
      fetchEventsBody decode g logs = Except.ok evs :=
  ⟨rfl, rfl, codeMatchingRecords decode g logs,
   fetchEvents_some_ok decode g logs, fetchEventsBody_eq decode g logs⟩

/-- C10: a log whose decoded game identifier is 0 is excluded from the
historical result even when the target game identifier is 0, because the
filter requires the decoded game id to be truthy before comparing. -/
theorem C10_zero_gameId_excluded (decode : Decoder)
    (pre post : List RawLog) (l : RawLog) (d : DecodedEvent)
    (hd : decode l = some d) (h0 : d.args.gameId = some 0) :
    fetchEvents (some ()) (Except.ok (pre ++ l :: post)) decode 0 =
      fetchEvents (some ()) (Except.ok (pre ++ post)) decode 0 := by
  have hfilter : historyFilter decode 0 l = false := by
    rw [historyFilter_of_some decode 0 l d hd, h0]
    rfl
  rw [fetchEvents_some_ok, fetchEvents_some_ok,
    codeMatchingRecords_drop decode 0 pre post l hfilter]

/-- Witness for C10: one log decoding to game id 0 yields the same (empty)
result as no log at all, at target game id 0. -/
theorem C10_witness :
    fetchEvents (some ()) (Except.ok ([] ++ rawLogA :: [])) zeroDecoder 0 =
      fetchEvents (some ()) (Except.ok ([] ++ [])) zeroDecoder 0 :=
  C10_zero_gameId_excluded zeroDecoder [] [] rawLogA zeroDecoded rfl rfl

/-- A decoded `GameCreated` event for game 7, as viem would decode a
`GameCreated` log of the contract (the repository's own `GameEventType`
declares this seventh tag). -/
def createdDecoded : DecodedEvent :=
  { eventName := GameEventType.GameCreated
    args := { gameId := some 7, subtraction := "", newNumber := "" } }

/-- Decoder returning `createdDecoded` for every log. -/
def createdDecoder : Decoder := fun _ => some createdDecoded

/-- C5 (as stated) is false: the historical fetch does not restrict the
event kind of its records to the six watched tags — decoding a
`GameCreated` log (the seventh tag of the repository's own
`GameEventType` union) for the target game yields a record whose kind is
outside the six. -/
theorem C5_counterexample_seventh_tag :
    fetchEvents (some ()) (Except.ok [rawLogA]) createdDecoder 7 =
      [mkHistoryRecord createdDecoded rawLogA] ∧
    (mkHistoryRecord createdDecoded rawLogA).type = GameEventType.GameCreated ∧
    GameEventType.GameCreated ∉ watchedEvents := by
  refine ⟨rfl, rfl, by decide⟩

/-- C5 (amended): every event record the subscription hook hands to the
callback has its kind among the six watched tags, and the hook registers
exactly six live event listeners, all on the single contract address;
the historical fetch, by contrast, can return a record whose kind is the
seventh tag `GameCreated`. -/
theorem C5_six_listeners_six_tags (addr : String) (e : GameEventType)
    (g : Option Int) (st cb : Bool) (log : LiveLog) (d : GameEventData)
    (he : e ∈ watchedEvents)
    (hc : Action.callback d ∈ processLog e g st cb log) :
    d.type ∈ watchedEvents ∧
    (registrations addr).length = 6 ∧
    (∀ r ∈ registrations addr, r.1 = addr) ∧
    (∃ r ∈ fetchEvents (some ()) (Except.ok [rawLogA]) createdDecoder 7,
      r.type ∉ watchedEvents) := by
  refine ⟨?_, rfl, ?_, ?_⟩
  · rw [callback_mem_processLog e g st cb log d hc]
    exact he
  · intro r hr
    simp only [registrations, watchedEvents, List.mem_map] at hr
    rcases hr with ⟨x, _, rfl⟩
    rfl
  · exact ⟨mkHistoryRecord createdDecoded rawLogA, by decide, by decide⟩

/-- Witness for C5 (amended): the PlayerJoined listener delivering a log
for game 5. -/
theorem C5_witness :
    (mkEventData GameEventType.PlayerJoined sampleLogFive).type ∈ watchedEvents ∧
    (registrations "0xgame").length = 6 ∧
    (∀ r ∈ registrations "0xgame", r.1 = "0xgame") ∧
    (∃ r ∈ fetchEvents (some ()) (Except.ok [rawLogA]) createdDecoder 7,
      r.type ∉ watchedEvents) :=
  C5_six_listeners_six_tags "0xgame" GameEventType.PlayerJoined (some 5) true true
    sampleLogFive (mkEventData GameEventType.PlayerJoined sampleLogFive)
    (by decide) (by decide)

/-- C8: for each adapter entry point, a construction error is logged and
the very same error value is rethrown, and the call returns normally
exactly when the underlying construction succeeds; `getContract` first
runs `getProvider` (whose failure propagates, with the provider-level
error already logged there) and then the contract constructor, logging
the contract-stage outcome and rethrowing its error unchanged. -/
theorem C8_errors_logged_and_rethrown {ε α β : Type}
    (pc : Except ε α) (cc : α → Except ε β) (wc : Except ε α) :
    (getProviderRun pc).2 = pc ∧
    (getViemClientRun pc).2 = pc ∧
    (getWalletClientRun wc).2 = wc ∧
    (getContractRun pc cc).2 = Except.bind pc cc ∧
    (getProviderRun pc).1 =
      [if exceptIsError pc then providerFailLog else providerOkLog] ∧
    (getViemClientRun pc).1 =
      [if exceptIsError pc then viemFailLog else viemOkLog] ∧
    (getWalletClientRun wc).1 =
      [if exceptIsError wc then walletFailLog else walletOkLog] ∧
    (getContractRun pc cc).1 =
      (getProviderRun pc).1 ++
        (match pc with
         | Except.error _ => []
         | Except.ok p =>
           [if exceptIsError (cc p) then contractFailLog else contractOkLog]) := by
  cases pc with
  | ok p =>
    cases wc with
    | ok w =>
      refine ⟨rfl, rfl, rfl, ?_, rfl, rfl, rfl, ?_⟩ <;>
        cases hcc : cc p <;>
          simp [getContractRun, getProviderRun, Except.bind, exceptIsError, hcc]
    | error ew =>
      refine ⟨rfl, rfl, rfl, ?_, rfl, rfl, rfl, ?_⟩ <;>
        cases hcc : cc p <;>
          simp [getContractRun, getProviderRun, Except.bind, exceptIsError, hcc]
  | error e =>
    cases wc with
    | ok w => exact ⟨rfl, rfl, rfl, rfl, rfl, rfl, rfl, rfl⟩
    | error ew => exact ⟨rfl, rfl, rfl, rfl, rfl, rfl, rfl, rfl⟩

end ZeroSum
